import Mathlib

/-!
Verification development for the rust-crypto-analyzer password analysis
library (src/rust-crypto-analyzer/src/lib.rs). The definitions below are a
shallow embedding of the Rust source: strings are Lean `String`s (whose
characters, like Rust `char`s, are Unicode scalar values), Rust `usize`
values are `Nat`, Rust `u32` fields carry an explicit `% 2 ^ 32` where the
source casts, and fallible functions return `Except`. Floating point
(`f64`) is modelled by the type `Fp` below, an idealized IEEE 754 carrier
that tracks NaN and the infinities exactly and finite values as reals.
-/

/-! ### Model of Rust string primitives

Rust's `str::len` returns the number of bytes of the UTF-8 encoding, not
the number of characters. We model the UTF-8 encoding explicitly.
-/

/-- UTF-8 encoding of a single Unicode scalar value, as a list of bytes
(each less than 256). This is the standard UTF-8 encoding used by Rust
strings. -/
def utf8Bytes (c : Char) : List Nat :=
  let n := c.toNat
  if n < 0x80 then [n]
  else if n < 0x800 then
    [0xC0 ||| (n >>> 6), 0x80 ||| (n &&& 0x3F)]
  else if n < 0x10000 then
    [0xE0 ||| (n >>> 12), 0x80 ||| ((n >>> 6) &&& 0x3F), 0x80 ||| (n &&& 0x3F)]
  else
    [0xF0 ||| (n >>> 18), 0x80 ||| ((n >>> 12) &&& 0x3F),
     0x80 ||| ((n >>> 6) &&& 0x3F), 0x80 ||| (n &&& 0x3F)]

/-- The UTF-8 byte sequence of a string, as Rust's `String::as_bytes`. -/
def strBytes (s : String) : List Nat :=
  (s.data.map utf8Bytes).flatten

/-- Rust's `str::len`: the number of UTF-8 bytes of the string. -/
def rustLen (s : String) : Nat :=
  (strBytes s).length

/-! ### Model of Rust character classification

The Rust source calls `char::is_uppercase`, `is_lowercase`, `is_numeric`
and `is_alphanumeric`, which consult the Unicode character database. We
model these tables exactly on the ASCII range and on the two non-ASCII
characters used as concrete inputs in this development:
the lowercase letter with code 0xE9 (Latin small letter e with acute,
which is Lowercase and Alphabetic) and the letter with code 0x3042
(Hiragana letter A, which is Alphabetic but neither Uppercase, Lowercase
nor Numeric). Characters outside this fragment are classified as none of
the classes; no theorem below depends on their classification.
-/

/-- Unicode Uppercase property as used by Rust `char::is_uppercase`,
modelled on the fragment described above. -/
def charIsUppercase (c : Char) : Bool :=
  'A' ≤ c && c ≤ 'Z'

/-- Unicode Lowercase property as used by Rust `char::is_lowercase`,
modelled on the fragment described above. -/
def charIsLowercase (c : Char) : Bool :=
  ('a' ≤ c && c ≤ 'z') || c == 'é'

/-- Unicode numeric classification (general categories Nd, Nl, No) as used
by Rust `char::is_numeric`, modelled on the fragment described above. -/
def charIsNumeric (c : Char) : Bool :=
  '0' ≤ c && c ≤ '9'

/-- Unicode Alphabetic property as used by Rust `char::is_alphabetic`,
modelled on the fragment described above. -/
def charIsAlphabetic (c : Char) : Bool :=
  charIsUppercase c || charIsLowercase c || c == 'あ'

/-- Rust `char::is_alphanumeric`: alphabetic or numeric. -/
def charIsAlphanumeric (c : Char) : Bool :=
  charIsAlphabetic c || charIsNumeric c

/-- Rust `str::to_lowercase`, modelled character-wise on the fragment:
ASCII uppercase letters map to the corresponding lowercase letters, every
other character of the fragment is unchanged (the special multi-character
lowercasings of full Unicode case mapping do not arise in the fragment). -/
def rustToLowerChar (c : Char) : Char :=
  if 'A' ≤ c ∧ c ≤ 'Z' then Char.ofNat (c.toNat + 32) else c

/-- Lowercasing of a whole string, as Rust `str::to_lowercase`. -/
def rustToLowerStr (s : String) : String :=
  String.mk (s.data.map rustToLowerChar)

/-- Rust `char::to_uppercase` restricted to ASCII, as it applies to the
output alphabet of hex encoding. -/
def rustToUpperChar (c : Char) : Char :=
  if 'a' ≤ c ∧ c ≤ 'z' then Char.ofNat (c.toNat - 32) else c

/-! ### Data model (structs of the source) -/

/-- The PatternAnalysis struct of the source. The numeric fields are `u32`
in Rust; `length` is stored via an `as u32` cast, which we model with an
explicit reduction mod 2 ^ 32. -/
structure PatternAnalysis where
  has_uppercase : Bool
  has_lowercase : Bool
  has_numbers : Bool
  has_symbols : Bool
  length : Nat
  repeated_chars : Nat
  sequential_chars : Nat

/-! ### Idealized IEEE 754 double model for the entropy estimate -/

/-- Idealized model of an IEEE 754 binary64 value: NaN and the two
infinities are tracked exactly, finite values are carried as exact reals
(the magnitudes arising in this development are far below overflow and the
claims proved below depend only on the NaN/infinity structure). -/
inductive Fp where
  | nan : Fp
  | posInf : Fp
  | negInf : Fp
  | val : ℝ → Fp

/-- IEEE 754 base-2 logarithm: log2 of negative values and of NaN is NaN,
log2 of zero is negative infinity, log2 of positive infinity is positive
infinity. -/
noncomputable def Fp.log2 : Fp → Fp
  | .nan => .nan
  | .posInf => .posInf
  | .negInf => .nan
  | .val x => if x < 0 then .nan else if x = 0 then .negInf else .val (Real.logb 2 x)

/-- IEEE 754 multiplication on the idealized carrier: NaN propagates, zero
times an infinity is NaN, nonzero finite times an infinity is a signed
infinity. -/
noncomputable def Fp.mul : Fp → Fp → Fp
  | .nan, _ => .nan
  | .posInf, .nan => .nan
  | .negInf, .nan => .nan
  | .val _, .nan => .nan
  | .posInf, .posInf => .posInf
  | .posInf, .negInf => .negInf
  | .negInf, .posInf => .negInf
  | .negInf, .negInf => .posInf
  | .posInf, .val x => if x = 0 then .nan else if x < 0 then .negInf else .posInf
  | .negInf, .val x => if x = 0 then .nan else if x < 0 then .posInf else .negInf
  | .val x, .posInf => if x = 0 then .nan else if x < 0 then .negInf else .posInf
  | .val x, .negInf => if x = 0 then .nan else if x < 0 then .posInf else .negInf
  | .val x, .val y => .val (x * y)

/-- The PasswordAnalysis struct of the source. -/
structure PasswordAnalysis where
  is_compliant : Bool
  strength_score : Nat
  entropy_bits : Fp
  pattern_analysis : PatternAnalysis
  feedback : List String
  analysis_time_ms : Int

/-! ### Common passwords and the precompiled sequence patterns -/

/-- The COMMON_PASSWORDS constant of the source. -/
def COMMON_PASSWORDS : List String :=
  ["password", "123456", "qwerty", "admin"]

/-- The helper is_common_password of the source: lowercase the password
and test membership in COMMON_PASSWORDS. -/
def is_common_password (password : String) : Bool :=
  COMMON_PASSWORDS.contains (rustToLowerStr password)

/-- Whether the character list begins with the given pattern list. -/
def startsWithL : List Char → List Char → Bool
  | _, [] => true
  | [], _ :: _ => false
  | a :: as, b :: bs => a == b && startsWithL as bs

/-- Whether the pattern occurs as a contiguous run somewhere in the
character list (the semantics of a fixed-string regular-expression
alternative being found in the haystack). -/
def hasSubstrL (hay pat : List Char) : Bool :=
  hay.tails.any (fun t => startsWithL t pat)

/-- Regex digit class (Unicode Nd) as used by the first precompiled
pattern of the source; on the modelled fragment this is the ASCII digits. -/
def charIsRegexDigit (c : Char) : Bool :=
  '0' ≤ c && c ≤ '9'

/-- Matcher for the first precompiled pattern of the source: four
consecutive digits anywhere in the haystack. -/
def hasFourDigitRun (hay : List Char) : Bool :=
  hay.tails.any (fun t => decide ((t.take 4).length = 4) && (t.take 4).all charIsRegexDigit)

/-- The alphabetic-run alternatives of the second precompiled pattern. -/
def alphaRuns : List (List Char) :=
  ["abc", "bcd", "cde", "def", "efg", "fgh", "ghi", "hij", "ijk", "jkl"].map String.data

/-- The numeric-run alternatives of the third precompiled pattern. -/
def numericRuns : List (List Char) :=
  ["123", "234", "345", "456", "567", "678", "789"].map String.data

/-- The qwerty-row alternatives of the fourth precompiled pattern. -/
def qwertyRuns : List (List Char) :=
  ["qwe", "wer", "ert", "rty", "tyu", "yui", "uio", "iop"].map String.data

/-- Matcher for an alternation of fixed strings: true when any alternative
occurs in the haystack. -/
def matchesAnyRun (runs : List (List Char)) (hay : List Char) : Bool :=
  runs.any (fun pat => hasSubstrL hay pat)

/-- The COMMON_PATTERNS_RE vector of the source, as the list of the four
is_match functions of its precompiled regular expressions, in order. -/
def commonPatternMatchers : List (List Char → Bool) :=
  [hasFourDigitRun, matchesAnyRun alphaRuns, matchesAnyRun numericRuns, matchesAnyRun qwertyRuns]

/-- The helper count_sequential_chars of the source: lowercase the
password, then count how many of the four precompiled patterns have at
least one match in it. -/
def count_sequential_chars (password : String) : Nat :=
  (commonPatternMatchers.filter (fun re => re (rustToLowerStr password).data)).length

/-- Counting loop of count_repeated_chars: one per window of three
consecutive equal characters, windows overlapping. -/
def countRepWindows : List Char → Nat
  | a :: b :: c :: rest => (if a = b ∧ b = c then 1 else 0) + countRepWindows (b :: c :: rest)
  | _ => 0

/-- The helper count_repeated_chars of the source: count the overlapping
windows of three consecutive characters that are all equal. -/
def count_repeated_chars (password : String) : Nat :=
  countRepWindows password.data

/-! ### The analysis functions of the source -/

/-- The function analyze_patterns of the source. The length field is the
Rust byte length cast to u32. -/
def analyze_patterns (password : String) : PatternAnalysis :=
  ⟨password.data.any charIsUppercase,
   password.data.any charIsLowercase,
   password.data.any charIsNumeric,
   password.data.any (fun c => !charIsAlphanumeric c),
   rustLen password % 2 ^ 32,
   count_repeated_chars password,
   count_sequential_chars password⟩

/-- The function calculate_strength_score of the source: length-tier
points by the Rust (byte) length, class bonuses, saturating deductions,
and a final clamp to at most 100. Nat subtraction is truncated at zero,
exactly matching u32 saturating_sub here. -/
def calculate_strength_score (password : String) (analysis : PatternAnalysis) : Nat :=
  let score := if rustLen password ≤ 7 then 5 else if rustLen password ≤ 11 then 25 else 40
  let score := score + (if analysis.has_lowercase then 10 else 0)
  let score := score + (if analysis.has_uppercase then 10 else 0)
  let score := score + (if analysis.has_numbers then 15 else 0)
  let score := score + (if analysis.has_symbols then 20 else 0)
  let score := if analysis.repeated_chars > 0 then score - 10 else score
  let score := if analysis.sequential_chars > 0 then score - 15 else score
  min score 100

/-- The function calculate_entropy of the source: charset size from the
class flags, then byte length (as f64) times the base-2 logarithm of the
charset size (as f64). There is no guard for charset size zero. -/
noncomputable def calculate_entropy (password : String) (analysis : PatternAnalysis) : Fp :=
  let charset_size : Nat :=
    (if analysis.has_lowercase then 26 else 0) + (if analysis.has_uppercase then 26 else 0)
      + (if analysis.has_numbers then 10 else 0) + (if analysis.has_symbols then 32 else 0)
  Fp.mul (Fp.val (rustLen password)) (Fp.log2 (Fp.val charset_size))

/-- Advisory message pushed when the password is shorter than 8 bytes. -/
def msgTooShort : String := "Password is too short (minimum 8 characters recommended)."

/-- Advisory message pushed for common passwords. -/
def msgTooCommon : String := "This password is too common and easy to guess."

/-- Advisory message pushed when sequential characters are detected. -/
def msgSequential : String :=
  "Passwords must not contain sequential characters (e.g., \x27abc\x27, \x27123\x27)."

/-- Advisory message pushed when no uppercase letter is present. -/
def msgUppercase : String := "Consider adding uppercase letters for more strength."

/-- Advisory message pushed when no number is present. -/
def msgNumbers : String := "Adding numbers will make your password stronger."

/-- Advisory message pushed when no symbol is present. -/
def msgSymbols : String := "Special characters like !@#$%^&* add significant security."

/-- Advisory message pushed when the score is below 75. -/
def msgManager : String :=
  "For maximum security, use a password manager to generate long, random passwords."

/-- The function generate_feedback of the source: a vector built by seven
independent conditional pushes, in program order. Each conditional push is
embedded as a conditional singleton, concatenated in the same order. -/
def generate_feedback (password : String) (analysis : PatternAnalysis) (score : Nat) : List String :=
  (if rustLen password < 8 then [msgTooShort] else [])
    ++ (if is_common_password password then [msgTooCommon] else [])
    ++ (if analysis.sequential_chars > 0 then [msgSequential] else [])
    ++ (if !analysis.has_uppercase then [msgUppercase] else [])
    ++ (if !analysis.has_numbers then [msgNumbers] else [])
    ++ (if !analysis.has_symbols then [msgSymbols] else [])
    ++ (if score < 75 then [msgManager] else [])

/-- The function check_password_policy of the source. The elapsed-time
measurement is an observational input, passed as a parameter; the body is
otherwise a direct transcription, and always returns Except.ok. -/
noncomputable def check_password_policy (elapsedMs : Int) (password : String) :
    Except String PasswordAnalysis :=
  let pattern_analysis := analyze_patterns password
  let strength_score := calculate_strength_score password pattern_analysis
  let entropy_bits := calculate_entropy password pattern_analysis
  let feedback := generate_feedback password pattern_analysis strength_score
  let is_compliant := decide (8 ≤ rustLen password) && decide (50 < strength_score)
    && !is_common_password password && decide (pattern_analysis.sequential_chars = 0)
  Except.ok ⟨is_compliant, strength_score, entropy_bits, pattern_analysis, feedback, elapsedMs⟩

/-- Compliance verdict of a policy-check result, false on the (never
taken) error branch. -/
def complianceOf (r : Except String PasswordAnalysis) : Bool :=
  match r with
  | .ok a => a.is_compliant
  | .error _ => false

/-- Feedback list of a policy-check result, empty on the (never taken)
error branch. -/
def feedbackOf (r : Except String PasswordAnalysis) : List String :=
  match r with
  | .ok a => a.feedback
  | .error _ => []

/-! ### Hashing service

The argon2 password-hash library is external to the repository; its parse
and verify operations are parameters of the embedding (an ArgonLib value).
The wrapper logic of the source (the match on the parse result, the
swallowing of batch failures into the ERROR sentinel, the HashMap
collection) is embedded directly.
-/

/-- Interface of the external argon2 password-hash library: PasswordHash
parsing (None models a parse error) and verification against a parsed
hash. -/
structure ArgonLib (H : Type) where
  parse : String → Option H
  verify : String → H → Bool

/-- The function verify_password_hash of the source: parse the stored
hash; on success return the verification verdict, on failure return false.
Both branches return Except.ok. -/
def verify_password_hash {H : Type} (lib : ArgonLib H) (password hash : String) :
    Except String Bool :=
  match lib.parse hash with
  | some parsed => Except.ok (lib.verify password parsed)
  | none => Except.ok false

/-- A concrete stub instance of the argon2 interface whose parse always
fails, used to exercise the wrapper at concrete inputs. -/
def argonStubReject : ArgonLib Unit :=
  ⟨fun _ => none, fun _ _ => true⟩

/-- Per-entry hashing of the batch loop in the source: the result of
hash_password, with a failure replaced by the ERROR sentinel
(unwrap_or_else). The hash_password call itself (argon2 with a random
salt) is external; it enters as the function parameter. -/
def hashOrError (hashFn : String → Except String String) (p : String) : String :=
  match hashFn p with
  | .ok h => h
  | .error _ => "ERROR"

/-- Key list of an association-list map. -/
def hmKeys (m : List (String × String)) : List String :=
  m.map Prod.fst

/-- Insertion into an association-list model of HashMap: an existing key
has its value replaced, a new key is appended. -/
def hmInsert (m : List (String × String)) (k v : String) : List (String × String) :=
  if k ∈ hmKeys m then m.map (fun e => if e.1 = k then (k, v) else e) else m ++ [(k, v)]

/-- Collection of a sequence of key-value pairs into the HashMap model, as
the collect of the source does from the mapped pairs. -/
def hmCollect (pairs : List (String × String)) : List (String × String) :=
  pairs.foldl (fun m kv => hmInsert m kv.1 kv.2) []

/-- The function batch_hash_passwords of the source: map every input
password to the pair of itself and its hash-or-sentinel, and collect the
pairs into a map keyed by password. Parallel evaluation of the pure
per-entry function is order-independent; the embedding evaluates it in
input order. The function always returns Except.ok. -/
def batch_hash_passwords (hashFn : String → Except String String) (passwords : List String) :
    Except String (List (String × String)) :=
  Except.ok (hmCollect (passwords.map (fun p => (p, hashOrError hashFn p))))

/-! ### SHA-1 and hex encoding

The sha1 crate used by the source implements FIPS 180 SHA-1; it is
embedded here in full over Nat bytes and 32-bit words carried as Nat
values below 2 ^ 32.
-/

/-- Rotation of a 32-bit word left by n bits. -/
def rotl32 (n x : Nat) : Nat :=
  ((x <<< n) ||| (x >>> (32 - n))) % 2 ^ 32

/-- Big-endian bytes of a 64-bit value. -/
def be64 (n : Nat) : List Nat :=
  [(n >>> 56) % 256, (n >>> 48) % 256, (n >>> 40) % 256, (n >>> 32) % 256,
   (n >>> 24) % 256, (n >>> 16) % 256, (n >>> 8) % 256, n % 256]

/-- Big-endian bytes of a 32-bit word. -/
def be32 (w : Nat) : List Nat :=
  [(w >>> 24) % 256, (w >>> 16) % 256, (w >>> 8) % 256, w % 256]

/-- SHA-1 message padding: append the 0x80 byte, zero bytes up to 56 mod
64, and the 64-bit big-endian bit length. -/
def sha1Pad (msg : List Nat) : List Nat :=
  msg ++ [128] ++ List.replicate ((119 - msg.length % 64) % 64) 0 ++ be64 (8 * msg.length)

/-- Grouping of a byte list into big-endian 32-bit words. -/
def toWords : List Nat → List Nat
  | a :: b :: c :: d :: rest => (((a * 256 + b) * 256 + c) * 256 + d) :: toWords rest
  | _ => []

/-- SHA-1 round constants. -/
def sha1K (i : Nat) : Nat :=
  if i < 20 then 0x5A827999 else if i < 40 then 0x6ED9EBA1
  else if i < 60 then 0x8F1BBCDC else 0xCA62C1D6

/-- SHA-1 round functions (the complement is taken inside 32 bits). -/
def sha1F (i b c d : Nat) : Nat :=
  if i < 20 then (b &&& c) ||| ((b ^^^ 0xFFFFFFFF) &&& d)
  else if i < 40 then b ^^^ c ^^^ d
  else if i < 60 then (b &&& c) ||| (b &&& d) ||| (c &&& d)
  else b ^^^ c ^^^ d

/-- SHA-1 message-schedule expansion of a 16-word block to 80 words. -/
def sha1Schedule (ws : List Nat) : List Nat :=
  (List.range 64).foldl
    (fun acc _ =>
      acc ++ [rotl32 1 ((acc.getD (acc.length - 3) 0) ^^^ (acc.getD (acc.length - 8) 0)
        ^^^ (acc.getD (acc.length - 14) 0) ^^^ (acc.getD (acc.length - 16) 0))])
    ws

/-- One SHA-1 round step on the five-word working state. -/
def sha1Round : (Nat × Nat × Nat × Nat × Nat) → (Nat × Nat) → (Nat × Nat × Nat × Nat × Nat)
  | ⟨a, b, c, d, e⟩, ⟨i, w⟩ =>
    ⟨(rotl32 5 a + sha1F i b c d + e + sha1K i + w) % 2 ^ 32, a, rotl32 30 b, c, d⟩

/-- Compression of one 16-word block into the running hash state. -/
def sha1Block (h : Nat × Nat × Nat × Nat × Nat) (ws : List Nat) : Nat × Nat × Nat × Nat × Nat :=
  match h, (sha1Schedule ws).enum.foldl sha1Round h with
  | ⟨h0, h1, h2, h3, h4⟩, ⟨a, b, c, d, e⟩ =>
    ⟨(h0 + a) % 2 ^ 32, (h1 + b) % 2 ^ 32, (h2 + c) % 2 ^ 32,
     (h3 + d) % 2 ^ 32, (h4 + e) % 2 ^ 32⟩

/-- Folding of the word stream through the block compression, 16 words at
a time (a padded message always splits into whole 16-word blocks, so the
catch-all arm only ever receives the empty list). -/
def sha1Blocks (h : Nat × Nat × Nat × Nat × Nat) :
    List Nat → Nat × Nat × Nat × Nat × Nat
  | w0 :: w1 :: w2 :: w3 :: w4 :: w5 :: w6 :: w7 ::
      w8 :: w9 :: w10 :: w11 :: w12 :: w13 :: w14 :: w15 :: rest =>
    sha1Blocks
      (sha1Block h [w0, w1, w2, w3, w4, w5, w6, w7, w8, w9, w10, w11, w12, w13, w14, w15]) rest
  | _ => h

/-- SHA-1 digest of a byte sequence: 20 bytes, big-endian words of the
final state from the standard initial state. -/
def sha1 (msg : List Nat) : List Nat :=
  match sha1Blocks ⟨0x67452301, 0xEFCDAB89, 0x98BADCFE, 0x10325476, 0xC3D2E1F0⟩
      (toWords (sha1Pad msg)) with
  | ⟨h0, h1, h2, h3, h4⟩ => be32 h0 ++ be32 h1 ++ be32 h2 ++ be32 h3 ++ be32 h4

/-- Lowercase hexadecimal digit, as produced by hex encoding. -/
def lowerHexDigit (n : Nat) : Char :=
  "0123456789abcdef".data.getD n '0'

/-- Lowercase hexadecimal encoding of one byte, most significant nibble
first. -/
def byteToHex (b : Nat) : List Char :=
  [lowerHexDigit (b / 16), lowerHexDigit (b % 16)]

/-- The uppercase hexadecimal alphabet, as a character test. -/
def isUpperHexDigit (c : Char) : Bool :=
  "0123456789ABCDEF".data.contains c

/-- The function hash_password_sha1 of the source: SHA-1 over the UTF-8
bytes of the password, hex encoded (lowercase by hex encode, then
uppercased character-wise as String to_uppercase does on this ASCII
alphabet), always Except.ok. -/
def hash_password_sha1 (password : String) : Except String String :=
  Except.ok (String.mk ((((sha1 (strBytes password)).map byteToHex).flatten).map rustToUpperChar))

/-! ### Claim-side formulations

The following definitions follow the words of spec claims rather than the
source; each is compared against the source-derived definition above in
the theorems below.
-/

/-- Score formula following the words of the score claim, with the length
tiers keyed by the character count of the password instead of the byte
count; all other components as in the source. -/
def scoreByCharTiers (password : String) : Nat :=
  let a := analyze_patterns password
  let score := if password.length ≤ 7 then 5 else if password.length ≤ 11 then 25 else 40
  let score := score + (if a.has_lowercase then 10 else 0)
  let score := score + (if a.has_uppercase then 10 else 0)
  let score := score + (if a.has_numbers then 15 else 0)
  let score := score + (if a.has_symbols then 20 else 0)
  let score := if a.repeated_chars > 0 then score - 10 else score
  let score := if a.sequential_chars > 0 then score - 15 else score
  min score 100

/-- Score formula following the words of the score claim with the length
tiers keyed by the byte length, as the source does; stated independently
to compare with calculate_strength_score. -/
def scoreByByteTiers (password : String) : Nat :=
  let a := analyze_patterns password
  let score := if rustLen password ≤ 7 then 5 else if rustLen password ≤ 11 then 25 else 40
  let score := score + (if a.has_lowercase then 10 else 0)
  let score := score + (if a.has_uppercase then 10 else 0)
  let score := score + (if a.has_numbers then 15 else 0)
  let score := score + (if a.has_symbols then 20 else 0)
  let score := if a.repeated_chars > 0 then score - 10 else score
  let score := if a.sequential_chars > 0 then score - 15 else score
  min score 100

/-- The seven feedback conditions paired with their messages, in the fixed
order of the feedback claim, with the length condition keyed by byte
length as the source has it. -/
def feedbackSpecList (password : String) (analysis : PatternAnalysis) (score : Nat) :
    List (Bool × String) :=
  [(decide (rustLen password < 8), msgTooShort),
   (is_common_password password, msgTooCommon),
   (decide (analysis.sequential_chars > 0), msgSequential),
   (!analysis.has_uppercase, msgUppercase),
   (!analysis.has_numbers, msgNumbers),
   (!analysis.has_symbols, msgSymbols),
   (decide (score < 75), msgManager)]

/-! ### Helper lemmas -/

/-- ASCII strings have exactly one UTF-8 byte per character. -/
theorem ascii_utf8_len (l : List Char) (h : ∀ c ∈ l, c.toNat < 128) :
    ((l.map utf8Bytes).flatten).length = l.length := by
  induction l with
  | nil => rfl
  | cons c rest ih =>
    have hc : c.toNat < 128 := h c (by simp)
    have hb : utf8Bytes c = [c.toNat] := by
      simp only [utf8Bytes]
      rw [if_pos hc]
    simp only [List.map_cons, List.flatten_cons, List.length_append, hb,
      ih (fun c hc' => h c (by simp [hc']))]
    simp [Nat.add_comm]

/-- Filtering a condition-message list commutes with conditional singleton
concatenation, one pair at a time. -/
theorem filterMap_cons_bool (b : Bool) (m : String) (rest : List (Bool × String)) :
    (((b, m) :: rest).filter Prod.fst).map Prod.snd
      = (if b then [m] else []) ++ ((rest.filter Prod.fst).map Prod.snd) := by
  cases b <;> simp

/-- The feedback vector built by the source equals the message projection
of the filtered condition-message list. -/
theorem generate_feedback_eq_spec (password : String) (analysis : PatternAnalysis) (score : Nat) :
    generate_feedback password analysis score
      = ((feedbackSpecList password analysis score).filter Prod.fst).map Prod.snd := by
  simp only [feedbackSpecList, filterMap_cons_bool, List.filter_nil, List.map_nil,
    List.append_nil, decide_eq_true_eq, generate_feedback, List.append_assoc]

/-- Replacing the value at one key leaves the key list unchanged. -/
theorem fst_replace (k v : String) (e : String × String) :
    (if e.1 = k then (k, v) else e).1 = e.1 := by
  by_cases h : e.1 = k <;> simp [h]

/-- Key list of the value-replacing branch of hmInsert. -/
theorem hmKeys_replace (m : List (String × String)) (k v : String) :
    hmKeys (m.map (fun e => if e.1 = k then (k, v) else e)) = hmKeys m := by
  simp only [hmKeys, List.map_map]
  exact List.map_congr_left (fun e _ => fst_replace k v e)

/-- Key list of an insertion: unchanged for a present key, extended by the
key otherwise. -/
theorem hmKeys_hmInsert (m : List (String × String)) (k v : String) :
    hmKeys (hmInsert m k v) = if k ∈ hmKeys m then hmKeys m else hmKeys m ++ [k] := by
  unfold hmInsert
  by_cases h : k ∈ hmKeys m
  · rw [if_pos h, if_pos h, hmKeys_replace]
  · rw [if_neg h, if_neg h]
    simp [hmKeys]

/-- Insertion preserves distinctness of keys. -/
theorem nodup_hmInsert (m : List (String × String)) (k v : String)
    (h : (hmKeys m).Nodup) : (hmKeys (hmInsert m k v)).Nodup := by
  rw [hmKeys_hmInsert]
  by_cases hk : k ∈ hmKeys m
  · simpa [hk] using h
  · simp only [hk, if_neg, if_false]
    simp [List.nodup_append, h, hk]

/-- Key membership after an insertion. -/
theorem mem_keys_hmInsert (m : List (String × String)) (k v p : String) :
    p ∈ hmKeys (hmInsert m k v) ↔ p ∈ hmKeys m ∨ p = k := by
  rw [hmKeys_hmInsert]
  by_cases hk : k ∈ hmKeys m
  · simp only [hk, if_pos]
    constructor
    · exact fun h => Or.inl h
    · rintro (h | rfl)
      · exact h
      · exact hk
  · simp [hk]

/-- Every entry after an insertion is an old entry or the inserted pair. -/
theorem mem_hmInsert (m : List (String × String)) (k v : String) (e : String × String)
    (h : e ∈ hmInsert m k v) : e ∈ m ∨ e = (k, v) := by
  by_cases hk : k ∈ hmKeys m
  · simp only [hmInsert, if_pos hk, List.mem_map] at h
    obtain ⟨e', he', heq⟩ := h
    by_cases h1 : e'.1 = k
    · right
      rw [← heq]
      simp [h1]
    · left
      rw [← heq]
      simpa [h1] using he'
  · simp only [hmInsert, if_neg hk, List.mem_append, List.mem_singleton] at h
    exact h

/-- Invariant of the collection fold: starting from an accumulator with
distinct keys whose values follow the per-key function, the fold keeps the
keys distinct, its key set is the union of the accumulator keys and the
pair keys, and every value follows the per-key function. -/
theorem hmFold_spec (f : String → String) :
    ∀ (pairs : List (String × String)) (acc : List (String × String)),
      (∀ kv ∈ pairs, kv.2 = f kv.1) → (∀ kv ∈ acc, kv.2 = f kv.1) → (hmKeys acc).Nodup →
      (hmKeys (pairs.foldl (fun m kv => hmInsert m kv.1 kv.2) acc)).Nodup
        ∧ (∀ p, p ∈ hmKeys (pairs.foldl (fun m kv => hmInsert m kv.1 kv.2) acc)
            ↔ p ∈ hmKeys acc ∨ p ∈ pairs.map Prod.fst)
        ∧ (∀ kv ∈ pairs.foldl (fun m kv => hmInsert m kv.1 kv.2) acc, kv.2 = f kv.1) := by
  intro pairs
  induction pairs with
  | nil =>
    intro acc _ hacc hnd
    exact ⟨hnd, fun p => by simp, hacc⟩
  | cons kv rest ih =>
    intro acc hpairs hacc hnd
    have hkv : kv.2 = f kv.1 := hpairs kv (by simp)
    have hacc' : ∀ e ∈ hmInsert acc kv.1 kv.2, e.2 = f e.1 := by
      intro e he
      rcases mem_hmInsert acc kv.1 kv.2 e he with h | h
      · exact hacc e h
      · rw [h]
        exact hkv
    have hnd' : (hmKeys (hmInsert acc kv.1 kv.2)).Nodup := nodup_hmInsert acc kv.1 kv.2 hnd
    have hrest : ∀ e ∈ rest, e.2 = f e.1 := fun e he => hpairs e (by simp [he])
    obtain ⟨h1, h2, h3⟩ := ih (hmInsert acc kv.1 kv.2) hrest hacc' hnd'
    refine ⟨by simpa using h1, fun p => ?_, by simpa using h3⟩
    have := h2 p
    simp only [List.foldl_cons]
    rw [this, mem_keys_hmInsert]
    simp only [List.map_cons, List.mem_cons]
    tauto

/-- The SHA-1 digest has exactly 20 bytes. -/
theorem sha1_length (m : List Nat) : (sha1 m).length = 20 := by
  unfold sha1
  split
  simp [be32]

/-- Every byte of the SHA-1 digest is below 256. -/
theorem sha1_bytes_lt (m : List Nat) : ∀ b ∈ sha1 m, b < 256 := by
  unfold sha1
  split
  intro b hb
  simp [be32] at hb
  rcases hb with h | h | h | h | h | h | h | h | h | h |
    h | h | h | h | h | h | h | h | h | h <;> omega

/-- Uppercasing a hex digit of a value below 16 lands in the uppercase
hexadecimal alphabet. -/
theorem upperHex_of_lt16 :
    ∀ n < 16, isUpperHexDigit (rustToUpperChar (lowerHexDigit n)) = true := by
  decide

/-- Both hex characters of a byte below 256 land, after uppercasing, in
the uppercase hexadecimal alphabet. -/
theorem byteToHex_upperHex (b : Nat) (hb : b < 256) :
    ∀ c ∈ byteToHex b, isUpperHexDigit (rustToUpperChar c) = true := by
  intro c hc
  simp only [byteToHex, List.mem_cons, List.mem_singleton, List.not_mem_nil, or_false] at hc
  rcases hc with h | h <;> subst h
  · exact upperHex_of_lt16 (b / 16) (by omega)
  · exact upperHex_of_lt16 (b % 16) (by omega)

/-- Hex encoding doubles the length of a byte list. -/
theorem flatten_byteToHex_length (l : List Nat) :
    ((l.map byteToHex).flatten).length = 2 * l.length := by
  induction l with
  | nil => rfl
  | cons b rest ih =>
    simp [byteToHex, ih]
    omega

set_option maxRecDepth 8000 in
/-- Golden value: the SHA-1 digest of the password literal used by the
breach-lookup tests, matching the published SHA-1 of that string. -/
theorem sha1_password_digest_golden :
    (hash_password_sha1 "password").toOption
      = some "5BAA61E4C9B93F3F0682250B6CF8331B7EE68FD8" := by
  decide

/-- Corroboration of the batch map at a concrete input: a duplicated
password with a failing hasher collapses to a single ERROR entry. -/
theorem batch_duplicate_error_eval :
    batch_hash_passwords (fun _ => Except.error "x") ["p", "p"]
      = Except.ok [("p", "ERROR")] := rfl

/-! ### Claim theorems -/

/-- Claim C1, counterexample: the claim states that the length field of
the fingerprint equals the number of Unicode scalar values. For the
one-character, two-byte string of the single character with code 0xE9 the
field is 2 while the character count is 1, so the claim is false. -/
theorem claim_C1_counterexample : (analyze_patterns "é").length = 2 ∧ "é".length = 1 := by
  decide

/-- Claim C1, amended: the length field produced by the pattern analysis
step equals the number of UTF-8 encoded bytes of the input (reduced mod
2 ^ 32 by the u32 cast), not the number of Unicode scalar values; for
ASCII-only strings the byte count coincides with the character count. -/
theorem claim_C1_amended : ∀ s : String,
    (analyze_patterns s).length = rustLen s % 2 ^ 32
      ∧ ((∀ c ∈ s.data, c.toNat < 128) → rustLen s = s.length) := by
  intro s
  refine ⟨rfl, fun h => ?_⟩
  exact ascii_utf8_len s.data h

/-- Witness for the amended claim C1 at a concrete ASCII input. -/
theorem claim_C1_witness : (∀ c ∈ "abc".data, c.toNat < 128) ∧ rustLen "abc" = "abc".length :=
  ⟨by decide, (claim_C1_amended "abc").2 (by decide)⟩

/-- Claim C2, code bug: the claim (and the spec, which calls the zero
guard required and not optional) states that the entropy estimate is 0
for the empty string and is never NaN. The source has no guard: for the
empty string it computes 0.0 times the base-2 logarithm of 0.0, which is
0.0 times negative infinity, which is NaN under IEEE 754 semantics. -/
theorem claim_C2_code_bug :
    ∃ r, check_password_policy 0 "" = Except.ok r ∧ r.entropy_bits = Fp.nan := by
  refine ⟨_, rfl, ?_⟩
  show calculate_entropy "" (analyze_patterns "") = Fp.nan
  have h : calculate_entropy "" (analyze_patterns "")
      = Fp.mul (Fp.val ((0 : Nat) : ℝ)) (Fp.log2 (Fp.val ((0 : Nat) : ℝ))) := rfl
  rw [h]
  norm_num [Fp.log2, Fp.mul]

/-- Claim C3, counterexample: the claim states that every password of
length below 8 is non-compliant. The 7-character password containing two
two-byte characters has 9 UTF-8 bytes and is reported compliant, so the
claim is false when length means character count as the spec defines it. -/
theorem claim_C3_counterexample :
    complianceOf (check_password_policy 0 "Aé1!bcé") = true ∧ "Aé1!bcé".length < 8 := by
  decide

/-- Claim C3, amended: compliance is reported true iff the UTF-8 byte
length is at least 8, the strength score exceeds 50, the password is not
in the common-password set (case-insensitively), and sequential_chars is
zero; consequently every password of byte length below 8 is non-compliant.
The length is measured in bytes, not characters. -/
theorem claim_C3_amended : ∀ (elapsedMs : Int) (s : String),
    complianceOf (check_password_policy elapsedMs s)
      = (decide (8 ≤ rustLen s) && decide (50 < calculate_strength_score s (analyze_patterns s))
          && !is_common_password s && decide ((analyze_patterns s).sequential_chars = 0))
    ∧ (rustLen s < 8 → complianceOf (check_password_policy elapsedMs s) = false) := by
  intro t s
  refine ⟨rfl, fun h => ?_⟩
  have h8 : ¬ (8 ≤ rustLen s) := Nat.not_le.mpr h
  simp [complianceOf, check_password_policy, h8]

/-- Witness for the amended claim C3 at a concrete short input. -/
theorem claim_C3_witness : rustLen "abc" < 8 ∧ complianceOf (check_password_policy 0 "abc") = false :=
  ⟨by decide, (claim_C3_amended 0 "abc").2 (by decide)⟩

/-- Claim C4, counterexample: the claim keys the length tiers by
character count (0 to 7 characters giving 5 points). For the 4-character,
8-byte string of four two-byte characters the source computes 25 (byte
tier 8 to 11, lowercase bonus, repeat deduction) while the claim formula
gives 5, so the claim is false. -/
theorem claim_C4_counterexample :
    calculate_strength_score "éééé" (analyze_patterns "éééé") = 25
      ∧ scoreByCharTiers "éééé" = 5 := by
  decide

/-- Claim C4, amended: the strength score always lies in the interval
from 0 to 100 and equals the additive formula of the claim with the
length tiers keyed by UTF-8 byte length rather than character count
(class bonuses, saturating deductions, clamp at 100 as claimed). -/
theorem claim_C4_amended : ∀ s : String,
    calculate_strength_score s (analyze_patterns s) = scoreByByteTiers s
      ∧ calculate_strength_score s (analyze_patterns s) ≤ 100 := by
  intro s
  exact ⟨rfl, Nat.min_le_right _ _⟩

/-- Claim C5, confirmed: sequential_chars counts, over the four fixed
precompiled pattern categories, those with at least one match in the
lower-cased password; it is at most 4, each category contributing at most
one, and it equals 2 for the password abc123. -/
theorem claim_C5_confirmed : (∀ s : String,
    count_sequential_chars s ≤ 4
      ∧ count_sequential_chars s
          = commonPatternMatchers.countP (fun re => re (rustToLowerStr s).data))
    ∧ count_sequential_chars "abc123" = 2 := by
  refine ⟨fun s => ⟨?_, ?_⟩, by decide⟩
  · exact le_trans (List.length_filter_le _ _) (by decide)
  · rw [List.countP_eq_length_filter]
    rfl

/-- Claim C6, counterexample: the claim requires the too-short message
whenever the length (character count per the spec) is below 8. The
7-character, 9-byte password is strong and gets an empty feedback list
even though its character count is below 8, so the claim is false. -/
theorem claim_C6_counterexample :
    feedbackOf (check_password_policy 0 "Aé1!bcé") = [] ∧ "Aé1!bcé".length < 8 := by
  decide

/-- Claim C6, amended: the feedback list contains exactly the messages
whose conditions hold, each condition evaluated independently, in the
fixed order of the claim, with the first condition keyed by UTF-8 byte
length below 8 rather than character count. -/
theorem claim_C6_amended : ∀ (elapsedMs : Int) (s : String),
    feedbackOf (check_password_policy elapsedMs s)
      = ((feedbackSpecList s (analyze_patterns s)
            (calculate_strength_score s (analyze_patterns s))).filter Prod.fst).map Prod.snd := by
  intro t s
  show generate_feedback s (analyze_patterns s) (calculate_strength_score s (analyze_patterns s)) = _
  exact generate_feedback_eq_spec s _ _

/-- Claim C7, confirmed: verification never returns an error: a hash
string that fails to parse yields the verdict false, and one that parses
yields the boolean verdict of the external verifier. -/
theorem claim_C7_confirmed : ∀ (H : Type) (lib : ArgonLib H) (password hash : String),
    (∃ b, verify_password_hash lib password hash = Except.ok b)
    ∧ (lib.parse hash = none → verify_password_hash lib password hash = Except.ok false)
    ∧ (∀ ph, lib.parse hash = some ph
        → verify_password_hash lib password hash = Except.ok (lib.verify password ph)) := by
  intro H lib password hash
  unfold verify_password_hash
  rcases hp : lib.parse hash with _ | ph
  · exact ⟨⟨false, rfl⟩, fun _ => rfl, fun ph h => by simp_all⟩
  · exact ⟨⟨lib.verify password ph, rfl⟩, fun h => by simp_all, fun ph' h => by simp_all⟩

/-- Witness for claim C7 at a concrete non-parsing hash string. -/
theorem claim_C7_witness :
    verify_password_hash argonStubReject "anyPassword" "not-a-valid-hash-string"
      = Except.ok false :=
  (claim_C7_confirmed Unit argonStubReject "anyPassword" "not-a-valid-hash-string").2.1 rfl

/-- Claim C8, confirmed: the batch never fails as a whole, its result has
exactly one entry per distinct input password (distinct keys, key set
equal to the input set), and every entry holds either the hash of its key
or the ERROR sentinel when the per-entry hashing failed. -/
theorem claim_C8_confirmed : ∀ (hashFn : String → Except String String) (passwords : List String),
    ∃ m, batch_hash_passwords hashFn passwords = Except.ok m
      ∧ (hmKeys m).Nodup
      ∧ (∀ p, p ∈ hmKeys m ↔ p ∈ passwords)
      ∧ (∀ kv ∈ m, kv.2 = hashOrError hashFn kv.1) := by
  intro hashFn passwords
  refine ⟨_, rfl, ?_⟩
  have hpairs : ∀ kv ∈ passwords.map (fun p => (p, hashOrError hashFn p)),
      kv.2 = hashOrError hashFn kv.1 := by
    intro kv hkv
    simp only [List.mem_map] at hkv
    obtain ⟨p, _, rfl⟩ := hkv
    rfl
  obtain ⟨h1, h2, h3⟩ := hmFold_spec (hashOrError hashFn)
    (passwords.map (fun p => (p, hashOrError hashFn p))) [] hpairs (by simp) (by simp [hmKeys])
  refine ⟨h1, fun p => ?_, h3⟩
  rw [hmCollect] at *
  have := h2 p
  rw [this]
  simp [hmKeys, List.map_map, Function.comp]

/-- Witness for claim C8 at a concrete duplicated input with a failing
hasher. -/
theorem claim_C8_witness :
    ∃ m, batch_hash_passwords (fun _ => Except.error "fail") ["a", "a"] = Except.ok m
      ∧ (hmKeys m).Nodup
      ∧ (∀ p, p ∈ hmKeys m ↔ p ∈ ["a", "a"])
      ∧ (∀ kv ∈ m, kv.2 = hashOrError (fun _ => Except.error "fail") kv.1) :=
  claim_C8_confirmed (fun _ => Except.error "fail") ["a", "a"]

/-- Claim C9, confirmed: the policy check is total: for every elapsed-time
measurement and every input string it returns a result and never an
error. -/
theorem claim_C9_confirmed : ∀ (elapsedMs : Int) (password : String),
    ∃ r, check_password_policy elapsedMs password = Except.ok r :=
  fun _ _ => ⟨_, rfl⟩

/-- Claim C10, confirmed: the SHA-1 digest function always returns a
40-character string over the uppercase hexadecimal alphabet and is a
deterministic function of the UTF-8 bytes of the input. -/
theorem claim_C10_confirmed : ∀ s : String,
    ∃ out, hash_password_sha1 s = Except.ok out
      ∧ out.length = 40
      ∧ (∀ c ∈ out.data, isUpperHexDigit c = true)
      ∧ (∀ t, strBytes t = strBytes s → hash_password_sha1 t = hash_password_sha1 s) := by
  intro s
  refine ⟨_, rfl, ?_, ?_, ?_⟩
  · show (String.mk _).length = 40
    rw [show ∀ l : List Char, (String.mk l).length = l.length from fun l => rfl]
    rw [List.length_map, flatten_byteToHex_length, sha1_length]
  · intro c hc
    simp only [String.data] at hc
    simp only [List.mem_map] at hc
    obtain ⟨c', hc', rfl⟩ := hc
    simp only [List.mem_flatten, List.mem_map] at hc'
    obtain ⟨l, ⟨b, hb, rfl⟩, hcl⟩ := hc'
    exact byteToHex_upperHex b (sha1_bytes_lt (strBytes s) b hb) c' hcl
  · intro t h
    simp only [hash_password_sha1, h]

/-- Witness for claim C10 at a concrete input. -/
theorem claim_C10_witness :
    ∃ out, hash_password_sha1 "password" = Except.ok out
      ∧ out.length = 40
      ∧ (∀ c ∈ out.data, isUpperHexDigit c = true)
      ∧ (∀ t, strBytes t = strBytes "password"
          → hash_password_sha1 t = hash_password_sha1 "password") :=
  claim_C10_confirmed "password"
